import Mathlib

/-!
Verification of the AirdropKit mailbox/extraction core: a shallow embedding of
`src/email/mail_cx/provider.py` (MailCxProvider) and
`src/airdrop_email/verifier.py` (CodeExtractor), with theorems checking the
design document's claims about them.

Modelling conventions:
* Python strings are `String`/`List Char`; epoch-millisecond timestamps are
  `Int` (a `datetime` value is carried as `int(dt.timestamp() * 1000)`, the
  only form the code compares).
* Python truthiness of optional strings/ints is made explicit
  (`optStrTruthy`, and `None`/`0` falsiness where the code tests it).
* Network and library effects are inputs: the fetched JSON array, the token
  handshake result, the clock readings, the RNG draws, and the HTML parsing
  capability (BeautifulSoup `get_text` flattening / anchor enumeration, which
  the design treats as a collaborator) are passed as explicit arguments.
* A raised exception inside the fetch loop is an `Except.error`; the outer
  `except` handler of `get_messages` maps it to `[]`, exactly as the code
  does.
* Regular-expression searches are embedded per pattern as executable leftmost
  match functions over `List Char` (ASCII model of `\w`, `\d`, `[A-Z0-9]`
  with IGNORECASE); each returns the captured group and the remainder after
  the match end, which for every pattern of the table coincides with the end
  of the capture.
-/

namespace AirdropKit

/-- EmailMessage from `src/airdrop_email/base.py`, restricted to the fields
the core reads (attachments/headers are never consulted by the verified
operations). `receivedAt` is the message timestamp in epoch milliseconds,
`none` when the datetime is absent. -/
structure EmailMessage where
  id : String
  subject : String
  sender : String
  recipient : String
  bodyText : String
  bodyHtml : Option String
  receivedAt : Option Int
deriving DecidableEq

/-- The mutable state of `MailCxProvider` that the session operations touch:
`email`, `auth_token`, `registration_time`, and the `auto_create` entry of
`self.config` (default `True`). -/
structure SessionState where
  email : String
  authToken : Option String
  registrationTime : Option Int
  autoCreate : Bool
deriving DecidableEq

/-- Python truthiness of an optional string: `None` and `""` are falsy. -/
def optStrTruthy : Option String → Bool
  | none => false
  | some s => !(s == "")

/-- MAIL_HOSTS of `MailCxProvider`. -/
def MAIL_HOSTS : List String := ["qabq.com", "nqmo.com", "end.tw", "uuf.me", "6n9.net"]

/-- `string.ascii_lowercase`, the population `random.choices` draws from. -/
def asciiLowercase : List Char := "abcdefghijklmnopqrstuvwxyz".data

/-- `generate_random_email`. The RNG is explicit: `lenChoice` stands for
`random.randint(6, 10)` (the five possible outcomes 6 + 0 .. 6 + 4),
`picks i` for the i-th draw of `random.choices(string.ascii_lowercase, k=n)`,
and `domainChoice` for `random.choice(self.MAIL_HOSTS)`. -/
def generate_random_email (lenChoice : Fin 5) (picks : Nat → Fin 26)
    (domainChoice : Fin 5) : String :=
  let usernameLength := 6 + lenChoice.val
  let username :=
    String.mk ((List.range usernameLength).map fun i => asciiLowercase.getD (picks i).val 'a')
  let domain := MAIL_HOSTS.getD domainChoice.val ""
  username ++ "@" ++ domain

/-- `create_email`: stores a freshly generated address and records
`registration_time = int(time.time() * 1000)`; `now` is that clock reading.
Returns the generated address alongside the updated state. -/
def create_email (st : SessionState) (lenChoice : Fin 5) (picks : Nat → Fin 26)
    (domainChoice : Fin 5) (now : Int) : String × SessionState :=
  let e := generate_random_email lenChoice picks domainChoice
  (e, { st with email := e, registrationTime := some now })

/-- `connect`: stores the token-handshake result into `self.auth_token`
unconditionally, returns `False` when that result is falsy, else creates a
new address when no address is bound or `auto_create` is set, and returns
`True`. `tokenResult` is what `get_auth_token()` returned (`none` models
Python `None`). -/
def connect (st : SessionState) (tokenResult : Option String) (lenChoice : Fin 5)
    (picks : Nat → Fin 26) (domainChoice : Fin 5) (now : Int) : Bool × SessionState :=
  let st1 : SessionState := { st with authToken := tokenResult }
  if !optStrTruthy tokenResult then (false, st1)
  else if (st1.email == "") || st1.autoCreate then
    (true, (create_email st1 lenChoice picks domainChoice now).2)
  else (true, st1)

/-- A JSON scalar as it appears in the `posix-millis` field: an integer, or a
malformed (string) value. -/
inductive JsonVal where
  | num (n : Int)
  | str (s : String)
deriving DecidableEq

/-- One raw record of the fetched JSON array, restricted to the fields
`get_messages` reads; `none` is an absent key (the `.get` default applies).
`fromAddr` is the sender string the code obtains from the `from` field
(either the `address` entry of a dict or `str()` of the value). -/
structure RawRecord where
  id : Option String
  subject : Option String
  fromAddr : Option String
  text : Option String
  html : Option String
  posixMillis : Option JsonVal
deriving DecidableEq

/-- Python truthiness of a JSON scalar: `0` and `""` are falsy. -/
def jsonTruthy : JsonVal → Bool
  | .num n => !(n == 0)
  | .str s => !(s == "")

/-- `msg_data.get('posix-millis', 0)`. -/
def recMsgTime (r : RawRecord) : JsonVal := r.posixMillis.getD (.num 0)

/-- `msg_time <= since_millis`: comparing a string with an int raises
`TypeError` (an `Except.error`), an int compares normally. -/
def jsonLeInt : JsonVal → Int → Except Unit Bool
  | .num n, b => .ok (decide (n ≤ b))
  | .str _, _ => .error ()

/-- The `received_at` computation: when `msg_time` is truthy the code runs
`datetime.fromtimestamp(msg_time / 1000)` inside a bare `try/except`; a
malformed value raises there and leaves `received_at = None`. The resulting
datetime is kept as its epoch milliseconds. -/
def parseReceivedAt (t : JsonVal) : Option Int :=
  if jsonTruthy t then
    match t with
    | .num n => some n
    | .str _ => none
  else none

/-- The `EmailMessage(...)` construction of the fetch loop, with the `.get`
defaults. -/
def toMessage (email : String) (r : RawRecord) : EmailMessage :=
  { id := r.id.getD ""
    subject := r.subject.getD ""
    sender := r.fromAddr.getD ""
    recipient := email
    bodyText := r.text.getD ""
    bodyHtml := some (r.html.getD "")
    receivedAt := parseReceivedAt (recMsgTime r) }

/-- The `since_millis` computation of `get_messages`: `since` when given (a
datetime argument is always truthy), else `registration_time` when that is
truthy, else `None`. -/
def effectiveSince (since registrationTime : Option Int) : Option Int :=
  match since with
  | some s => some s
  | none =>
    match registrationTime with
    | some r => if r = 0 then none else some r
    | none => none

/-- `if since_millis and msg_time <= since_millis: continue` for one record:
short-circuit on the truthiness of `since_millis`, then the comparison (which
may raise on a malformed timestamp). -/
def recordSkip (sinceMillis : Option Int) (r : RawRecord) : Except Unit Bool :=
  match sinceMillis with
  | some b => if b = 0 then .ok false else jsonLeInt (recMsgTime r) b
  | none => .ok false

/-- The record loop of `get_messages` over `data[:limit]`; a raised
comparison aborts the whole loop. -/
def processRecords (sinceMillis : Option Int) (email : String) :
    List RawRecord → Except Unit (List EmailMessage)
  | [] => .ok []
  | r :: rs =>
    match recordSkip sinceMillis r with
    | .error e => .error e
    | .ok true => processRecords sinceMillis email rs
    | .ok false =>
      match processRecords sinceMillis email rs with
      | .error e => .error e
      | .ok ms => .ok (toMessage email r :: ms)

/-- `get_messages`: empty when not connected (falsy token or empty address),
empty when the HTTP call fails (`fetchOk = false` models a non-200 status or
transport error), else the filtered translation of `data[:limit]`; any
exception inside the loop is absorbed by the outer `except` into `[]`. -/
def get_messages (authToken : Option String) (email : String)
    (registrationTime since : Option Int) (limit : Nat) (fetchOk : Bool)
    (data : List RawRecord) : List EmailMessage :=
  if !optStrTruthy authToken then []
  else if email = "" then []
  else if !fetchOk then []
  else
    match processRecords (effectiveSince since registrationTime) email (data.take limit) with
    | .ok ms => ms
    | .error _ => []

/-- A record whose `posix-millis` field, when present, is an integer (the
well-formed case; a `str` value is the malformed case). -/
def intTimestamped (r : RawRecord) : Bool :=
  match r.posixMillis with
  | some (.str _) => false
  | _ => true

/-- The timestamp the fetch loop compares: the integer value, `0` when the
field is absent. -/
def tsOrZero (r : RawRecord) : Int :=
  match r.posixMillis with
  | some (.num n) => n
  | _ => 0

/-- ASCII `str.lower()` on one character. -/
def lowerCh (c : Char) : Char := c.toLower

/-- Substring test: `needle in hay` on lists of characters (the empty needle
is contained in everything, as in Python). -/
def containsSub (needle : List Char) : List Char → Bool
  | [] => needle.isEmpty
  | c :: t => needle.isPrefixOf (c :: t) || containsSub needle t

/-- `needle.lower() in hay.lower()`. -/
def containsStrCI (hay needle : String) : Bool :=
  containsSub (needle.data.map lowerCh) (hay.data.map lowerCh)

/-- One filter of `wait_for_message`: the message passes when the filter is
falsy (`None` or `""`) or is a case-insensitive substring of the field. -/
def matchesFilter (filt : Option String) (field : String) : Bool :=
  match filt with
  | none => true
  | some s => if s = "" then true else containsStrCI field s

/-- `wait_for_message`'s staleness test: a present `received_at` whose epoch
milliseconds are below `wait_start_millis`. -/
def tooOldFor (waitStart : Int) (m : EmailMessage) : Bool :=
  match m.receivedAt with
  | some t => decide (t < waitStart)
  | none => false

/-- The inner `for msg in messages` loop of `wait_for_message` over one
poll's fetch result: skips already-seen ids, records every examined id,
skips stale and filtered-out messages, and short-circuits on the first
qualifying one. Returns the verdict and the enlarged seen set. -/
def scanPoll (waitStart : Int) (fSubj fSend : Option String) :
    List String → List EmailMessage → Option EmailMessage × List String
  | seen, [] => (none, seen)
  | seen, m :: rest =>
    if m.id ∈ seen then scanPoll waitStart fSubj fSend seen rest
    else
      let seen1 := m.id :: seen
      if tooOldFor waitStart m then scanPoll waitStart fSubj fSend seen1 rest
      else if !matchesFilter fSubj m.subject then scanPoll waitStart fSubj fSend seen1 rest
      else if !matchesFilter fSend m.sender then scanPoll waitStart fSubj fSend seen1 rest
      else (some m, seen1)

/-- The polling loop of `wait_for_message` from a given seen-id set: `polls`
is the sequence of `get_messages(limit=20)` results the call observes before
its deadline (a poll whose fetch failed is `[]`, which the loop tolerates);
the first qualifying message is returned, `none` when the deadline elapses. -/
def waitFromSeen (waitStart : Int) (fSubj fSend : Option String) :
    List String → List (List EmailMessage) → Option EmailMessage
  | _, [] => none
  | seen, poll :: polls =>
    match scanPoll waitStart fSubj fSend seen poll with
    | (some m, _) => some m
    | (none, seen1) => waitFromSeen waitStart fSubj fSend seen1 polls

/-- `wait_for_message`: the loop starts with `seen_ids = set()` and
`wait_start_millis = int(time.time() * 1000)`. -/
def wait_for_message (waitStart : Int) (fSubj fSend : Option String)
    (polls : List (List EmailMessage)) : Option EmailMessage :=
  waitFromSeen waitStart fSubj fSend [] polls

/-- ASCII `\d`. -/
def isDigitCh (c : Char) : Bool := c.isDigit

/-- ASCII `\w`: letters, digits, underscore. -/
def isWordCh (c : Char) : Bool := c.isAlpha || c.isDigit || c == '_'

/-- `[A-Z0-9]` under `re.IGNORECASE`: letters of either case and digits. -/
def isAlnumCI (c : Char) : Bool := c.isAlpha || c.isDigit

/-- A `\b` holds before the current position: the previous character (none at
the string start) is a non-word character; combined with a word character at
the position itself, which every use below guarantees. -/
def boundaryBefore : Option Char → Bool
  | none => true
  | some p => !isWordCh p

/-- Match of `\d{n}\b` at the current position: exactly `n` digits followed
by the end or a non-word character. Returns the capture and the remainder
after the match. -/
def digitRunAt (n : Nat) (s : List Char) : Option (List Char × List Char) :=
  let cap := s.take n
  if cap.length = n && cap.all isDigitCh then
    match s.drop n with
    | [] => some (cap, [])
    | c :: t => if isWordCh c then none else some (cap, c :: t)
  else none

/-- `re.search` of `\b(\d{n})\b`: leftmost position with a boundary before
it where `n` digits end at a boundary. `prev` is the character before the
scan position (`none` at the string start, and when resuming after a match
the remainder always starts with the non-word character that closed it). -/
def searchDigits (n : Nat) : Option Char → List Char → Option (List Char × List Char)
  | _, [] => none
  | prev, c :: t =>
    if boundaryBefore prev then
      match digitRunAt n (c :: t) with
      | some r => some r
      | none => searchDigits n (some c) t
    else searchDigits n (some c) t

/-- Length of the longest prefix satisfying `p`. -/
def countWhile (p : Char → Bool) : List Char → Nat
  | [] => 0
  | c :: t => if p c then countWhile p t + 1 else 0

/-- Match of `([A-Z0-9]{6,8})\b` (IGNORECASE) at the current position: the
maximal alphanumeric run must itself have length 6 to 8 (a shorter greedy
take would end on a word character, failing the boundary) and end at the end
or a non-word character. -/
def alnumTokenAt (s : List Char) : Option (List Char × List Char) :=
  let run := countWhile isAlnumCI s
  if 6 ≤ run && run ≤ 8 then
    match s.drop run with
    | [] => some (s.take run, [])
    | c :: t => if isWordCh c then none else some (s.take run, c :: t)
  else none

/-- `re.search` of `\b([A-Z0-9]{6,8})\b` with IGNORECASE. -/
def searchAlnumToken : Option Char → List Char → Option (List Char × List Char)
  | _, [] => none
  | prev, c :: t =>
    if boundaryBefore prev then
      match alnumTokenAt (c :: t) with
      | some r => some r
      | none => searchAlnumToken (some c) t
    else searchAlnumToken (some c) t

/-- Case-insensitive prefix test (needle against hay). -/
def beginsWithCI : List Char → List Char → Bool
  | [], _ => true
  | _ :: _, [] => false
  | a :: as, b :: bs => (lowerCh a == lowerCh b) && beginsWithCI as bs

/-- The class `[\s:：]` of the label patterns (ASCII whitespace and the two
colon forms). -/
def isSpaceColon (c : Char) : Bool :=
  c == ' ' || c == '\t' || c == '\n' || c == '\x0d' || c == '\x0b' || c == '\x0c' ||
    c == ':' || c == '：'

/-- Match of `(?:L1|L2|…)[\s:：]*([A-Z0-9]{4,8})` (IGNORECASE) at the current
position: the labels have pairwise distinct prefixes, so at most one
alternative applies; the separator class is disjoint from the capture class,
so the greedy separator never needs to backtrack; the greedy capture takes at
most 8 of an alphanumeric run of length at least 4 (no trailing boundary). -/
def labelCaptureAt (labels : List (List Char)) (s : List Char) :
    Option (List Char × List Char) :=
  match labels.find? (fun L => beginsWithCI L s) with
  | none => none
  | some L =>
    let rest := (s.drop L.length).drop (countWhile isSpaceColon (s.drop L.length))
    let run := countWhile isAlnumCI rest
    if 4 ≤ run then some (rest.take (min run 8), rest.drop (min run 8))
    else none

/-- `re.search` of a label-alternation pattern: leftmost position where a
label followed by a separator run and a 4-to-8 alphanumeric capture matches. -/
def searchLabel (labels : List (List Char)) : List Char → Option (List Char × List Char)
  | [] => none
  | c :: t =>
    match labelCaptureAt labels (c :: t) with
    | some r => some r
    | none => searchLabel labels t

/-- The English label alternation of `PATTERNS`, in the regex's order. -/
def labelsEnglish : List (List Char) :=
  ["code".data, "verification code".data, "verify code".data,
    "confirmation code".data, "otp".data, "pin".data]

/-- The CJK label alternation of `PATTERNS`. -/
def labelsCjk : List (List Char) :=
  ["验证码".data, "確認碼".data, "驗證碼".data]

/-- Match of `[?&]key([A-Z0-9]+)` at the current position, `key` being
`code=` or `token=`: a `?` or `&`, the key (case-insensitively), then a
nonempty greedy alphanumeric capture. -/
def paramCaptureAt (key : List Char) (s : List Char) : Option (List Char × List Char) :=
  match s with
  | [] => none
  | c :: t =>
    if (c == '?' || c == '&') && beginsWithCI key t then
      let rest := t.drop key.length
      let run := countWhile isAlnumCI rest
      if 1 ≤ run then some (rest.take run, rest.drop run) else none
    else none

/-- `re.search` of `[?&]code=([A-Z0-9]+)` / `[?&]token=([A-Z0-9]+)`. -/
def searchParam (key : List Char) : List Char → Option (List Char × List Char)
  | [] => none
  | c :: t =>
    match paramCaptureAt key (c :: t) with
    | some r => some r
    | none => searchParam key t

/-- `CodeExtractor.PATTERNS` as its embedded search functions, in the
source's priority order: bare 6-digit, bare 4-digit, bare 8-digit, 6-8
alphanumeric token, English labels, CJK labels, `code=` parameter, `token=`
parameter. -/
def PATTERNS : List (List Char → Option (List Char × List Char)) :=
  [searchDigits 6 none, searchDigits 4 none, searchDigits 8 none,
    searchAlnumToken none,
    searchLabel labelsEnglish, searchLabel labelsCjk,
    searchParam "code=".data, searchParam "token=".data]

/-- The false-positive literal list of `_is_valid_code`. -/
def falsePositives : List String :=
  ["2024", "2023", "2022", "2021", "2020", "1234", "0000", "9999"]

/-- `_is_valid_code`: reject a false-positive literal, reject a length
outside 4..8, accept otherwise. -/
def is_valid_code (code : String) : Bool :=
  if falsePositives.contains code then false
  else if code.length < 4 || 8 < code.length then false
  else true

/-- The default-pattern loop of `extract_code`: for each pattern in order,
take its first match (`re.search`) and return the captured group when it
validates; a pattern whose first match fails validation is abandoned (its
later matches are never examined). -/
def tryPatterns : List (List Char → Option (List Char × List Char)) →
    List Char → Option String
  | [], _ => none
  | p :: ps, s =>
    match p s with
    | some (cap, _) =>
      if is_valid_code (String.mk cap) then some (String.mk cap) else tryPatterns ps s
    | none => tryPatterns ps s

/-- The unified search text of `extract_code` / `extract_all_codes`:
`flatten` is the collaborator capability stripping script/style and
flattening the HTML to visible text (`BeautifulSoup.get_text(separator=' ',
strip=True)`); when `use_html` is set and the HTML body is truthy, the
flattened HTML is concatenated before the plain-text body. -/
def unifiedText (flatten : String → String) (bodyHtml : Option String)
    (bodyText : String) (useHtml : Bool) : String :=
  if useHtml && optStrTruthy bodyHtml then
    flatten (bodyHtml.getD "") ++ "\n" ++ bodyText
  else bodyText

/-- `extract_code`: a supplied (truthy) custom pattern is applied as its
search semantics `custom` (the function returning the first match's captured
group) with no validation; otherwise the default pattern table is tried. -/
def extract_code (flatten : String → String) (m : EmailMessage)
    (pattern : Option (String → Option String)) (useHtml : Bool) : Option String :=
  let text := unifiedText flatten m.bodyHtml m.bodyText useHtml
  match pattern with
  | some custom => custom text
  | none => tryPatterns PATTERNS text.data

/-- `re.finditer` for one embedded pattern: repeated leftmost matches, each
resuming after the previous match's end; the fuel (always instantiated with
the text length plus one) bounds the iteration, and every match consumes at
least one character. -/
def collectMatches (p : List Char → Option (List Char × List Char)) :
    Nat → List Char → List (List Char)
  | 0, _ => []
  | fuel + 1, s =>
    match p s with
    | none => []
    | some (cap, rest) => cap :: collectMatches p fuel rest

/-- The inner accumulation of `extract_all_codes`: append a match when it is
unseen and validates (an invalid match is not marked seen, as in the code).
The accumulator is kept reversed. -/
def addMatches : List (List Char) → List String → List String → List String × List String
  | [], seen, acc => (seen, acc)
  | cap :: rest, seen, acc =>
    let code := String.mk cap
    if !(seen.contains code) && is_valid_code code then
      addMatches rest (code :: seen) (code :: acc)
    else addMatches rest seen acc

/-- The pattern loop of `extract_all_codes` over the table. -/
def collectCodes : List (List Char → Option (List Char × List Char)) →
    List Char → List String → List String → List String
  | [], _, _, acc => acc.reverse
  | p :: ps, s, seen, acc =>
    let sa := addMatches (collectMatches p (s.length + 1) s) seen acc
    collectCodes ps s sa.1 sa.2

/-- `extract_all_codes`: every match of every pattern over the unified text,
first-seen order, de-duplicated, each subject to `_is_valid_code`. -/
def extract_all_codes (flatten : String → String) (m : EmailMessage)
    (useHtml : Bool) : List String :=
  let text := unifiedText flatten m.bodyHtml m.bodyText useHtml
  collectCodes PATTERNS text.data [] []

/-- One `<a href=…>` element as the HTML parsing collaborator reports it:
the href value and the visible text. -/
structure Anchor where
  href : String
  text : String
deriving DecidableEq

/-- `href.startswith(('http://', 'https://'))`. -/
def hrefIsHttp (href : String) : Bool :=
  "http://".data.isPrefixOf href.data || "https://".data.isPrefixOf href.data

/-- The anchor loop of `extract_link`: with a truthy keyword, the first
anchor whose href or visible text contains it case-insensitively (no scheme
check); with a falsy keyword, the first anchor whose href starts with
`http://` or `https://`. -/
def anchorScan (keyword : Option String) : List Anchor → Option String
  | [] => none
  | a :: rest =>
    match keyword with
    | some kw =>
      if kw = "" then
        if hrefIsHttp a.href then some a.href else anchorScan keyword rest
      else if containsStrCI a.href kw || containsStrCI a.text kw then some a.href
      else anchorScan keyword rest
    | none =>
      if hrefIsHttp a.href then some a.href else anchorScan keyword rest

/-- The character class `[^\s<>"]` of the plain-text URL pattern, negated. -/
def isUrlStop (c : Char) : Bool :=
  c == ' ' || c == '\t' || c == '\n' || c == '\x0d' || c == '\x0b' || c == '\x0c' ||
    c == '<' || c == '>' || c == '"'

/-- Match of `https?://[^\s<>"]+|www\.[^\s<>"]+` at the current position:
the alternatives in the regex's order, each a literal head followed by a
nonempty greedy run; the full match is returned (the pattern has no group,
so `findall` yields whole matches). -/
def urlAt (s : List Char) : Option (List Char × List Char) :=
  let tryHead : List Char → Option (List Char × List Char) := fun head =>
    if head.isPrefixOf s then
      let rest := s.drop head.length
      let run := countWhile (fun c => !isUrlStop c) rest
      if 1 ≤ run then some (head ++ rest.take run, rest.drop run) else none
    else none
  match tryHead "https://".data with
  | some r => some r
  | none =>
    match tryHead "http://".data with
    | some r => some r
    | none => tryHead "www.".data

/-- `re.findall(url_pattern, text)`: leftmost non-overlapping matches. -/
def findallUrls : Nat → List Char → List (List Char)
  | 0, _ => []
  | _, [] => []
  | fuel + 1, c :: t =>
    match urlAt (c :: t) with
    | some (mtch, rest) => mtch :: findallUrls fuel rest
    | none => findallUrls fuel t

/-- The plain-text fallback loop of `extract_link`: with a truthy keyword,
the first URL containing it case-insensitively; else the first URL. -/
def textUrlScan (keyword : Option String) : List (List Char) → Option String
  | [] => none
  | u :: rest =>
    match keyword with
    | some kw =>
      if kw = "" then some (String.mk u)
      else if containsStrCI (String.mk u) kw then some (String.mk u)
      else textUrlScan keyword rest
    | none => some (String.mk u)

/-- `extract_link`: when the HTML body is truthy, scan its anchors (`parse`
is the collaborator enumerating `<a href=…>` elements); when that yields
nothing, fall back to the URL regex over the plain-text body. -/
def extract_link (parse : String → List Anchor) (m : EmailMessage)
    (keyword : Option String) : Option String :=
  let text := m.bodyText
  let fromHtml : Option String :=
    if optStrTruthy m.bodyHtml then anchorScan keyword (parse (m.bodyHtml.getD ""))
    else none
  match fromHtml with
  | some href => some href
  | none => textUrlScan keyword (findallUrls (text.data.length + 1) text.data)

/-! Concrete inputs for witnesses and counterexamples. -/

/-- The flattening capability instantiated on messages that carry no HTML
body (the argument is then never consulted). -/
def idFlatten : String → String := fun h => h

/-- A message whose whole body is one false-positive literal. -/
def msg2024 : EmailMessage :=
  ⟨"id-a", "subject", "snd@x.y", "me@qabq.com", "2024", none, none⟩

/-- The embedded search semantics of the custom regex `(2024)`: its first
match's captured group is `"2024"` exactly when the literal occurs in the
text. -/
def pat2024 (text : String) : Option String :=
  if containsSub "2024".data text.data then some "2024" else none

/-- A message whose body holds an invalid first 4-digit match (`2024`)
followed by a valid second one (`5678`). -/
def msgTwoNums : EmailMessage :=
  ⟨"id-b", "subject", "snd@x.y", "me@qabq.com", "2024 5678", none, none⟩

/-- Two messages with identical bodies but different identity fields. -/
def msgCodeA : EmailMessage :=
  ⟨"id-c", "Your verification", "noreply@svc.io", "me@qabq.com",
    "Your code 482913 thanks", none, none⟩

/-- See `msgCodeA`. -/
def msgCodeB : EmailMessage :=
  ⟨"id-d", "Other subject", "other@svc.io", "me@qabq.com",
    "Your code 482913 thanks", none, none⟩

/-- A raw record with no `posix-millis` field at all. -/
def recNoTs : RawRecord :=
  ⟨some "m1", some "subj", some "x@y.z", some "hello", some "", none⟩

/-- A raw record stamped after the example lower bound 5000. -/
def recKept : RawRecord :=
  ⟨some "m9", some "subj9", some "s@x.y", some "body9", some "", some (.num 6000)⟩

/-- A well-formed record stamped after the example lower bound 1000. -/
def recGood : RawRecord :=
  ⟨some "g1", some "s1", some "a@b.c", some "t1", some "", some (.num 2000)⟩

/-- A record whose `posix-millis` field is a malformed (string) value. -/
def recBadTs : RawRecord :=
  ⟨some "g2", some "s2", some "d@e.f", some "t2", some "", some (.str "not-a-number")⟩

/-- A fresh message received at 150, after the example wait start 100. -/
def freshMsg : EmailMessage :=
  ⟨"newid", "Welcome", "noreply@x.io", "me@qabq.com", "hi", some "", some 150⟩

/-- A session already holding a token from an earlier successful handshake. -/
def sessionWithToken : SessionState := ⟨"old@qabq.com", some "oldtoken", some 5, true⟩

/-- A fresh session before any connect. -/
def freshSession : SessionState := ⟨"", none, none, true⟩

/-- A constant RNG draw sequence. -/
def zeroPicks : Nat → Fin 26 := fun _ => 0

/-- An anchor whose href is a mailto: link and whose visible text holds the
keyword. -/
def mailtoAnchor : Anchor := ⟨"mailto:support@example.com", "Verify your email"⟩

/-- The parsing capability reporting exactly `mailtoAnchor`. -/
def mailtoParse : String → List Anchor := fun _ => [mailtoAnchor]

/-- A message whose HTML body parses to `mailtoAnchor` alone. -/
def msgMailto : EmailMessage :=
  ⟨"id-e", "subj", "snd@x.y", "me@qabq.com", "",
    some "<a href=\"mailto:support@example.com\">Verify your email</a>", none⟩

/-! Helper lemmas. -/

/-- Every character `random.choices` can draw is a lowercase letter. -/
theorem asciiLowercase_getD_range :
    ∀ j : Fin 26, 'a' ≤ asciiLowercase.getD j.val 'a' ∧ asciiLowercase.getD j.val 'a' ≤ 'z' := by
  decide

/-- Every domain `random.choice` can draw is a configured host. -/
theorem mail_hosts_getD_mem : ∀ d : Fin 5, MAIL_HOSTS.getD d.val "" ∈ MAIL_HOSTS := by
  decide

/-- `scanPoll` only ever enlarges the seen-id set. -/
theorem scanPoll_mem_seen (waitStart : Int) (fSubj fSend : Option String) :
    ∀ (msgs : List EmailMessage) (seen : List String) (x : String), x ∈ seen →
      x ∈ (scanPoll waitStart fSubj fSend seen msgs).2 := by
  intro msgs
  induction msgs with
  | nil => intro seen x hx; simpa [scanPoll] using hx
  | cons m rest ih =>
    intro seen x hx
    simp only [scanPoll]
    split
    · exact ih seen x hx
    · split
      · exact ih _ x (List.mem_cons_of_mem _ hx)
      · split
        · exact ih _ x (List.mem_cons_of_mem _ hx)
        · split
          · exact ih _ x (List.mem_cons_of_mem _ hx)
          · exact List.mem_cons_of_mem _ hx

/-- A message `scanPoll` returns was not in the incoming seen set and, when
stamped, is not older than the wait start. -/
theorem scanPoll_some (waitStart : Int) (fSubj fSend : Option String) :
    ∀ (msgs : List EmailMessage) (seen : List String) (m : EmailMessage) (s2 : List String),
      scanPoll waitStart fSubj fSend seen msgs = (some m, s2) →
      m.id ∉ seen ∧ ∀ t, m.receivedAt = some t → waitStart ≤ t := by
  intro msgs
  induction msgs with
  | nil => intro seen m s2 h; simp [scanPoll] at h
  | cons m0 rest ih =>
    intro seen m s2 h
    simp only [scanPoll] at h
    by_cases h1 : m0.id ∈ seen
    · rw [if_pos h1] at h
      exact ih seen m s2 h
    · rw [if_neg h1] at h
      by_cases h2 : tooOldFor waitStart m0
      · rw [if_pos h2] at h
        have := ih _ m s2 h
        exact ⟨fun hm => this.1 (List.mem_cons_of_mem _ hm), this.2⟩
      · rw [if_neg h2] at h
        by_cases h3 : !matchesFilter fSubj m0.subject
        · rw [if_pos h3] at h
          have := ih _ m s2 h
          exact ⟨fun hm => this.1 (List.mem_cons_of_mem _ hm), this.2⟩
        · rw [if_neg h3] at h
          by_cases h4 : !matchesFilter fSend m0.sender
          · rw [if_pos h4] at h
            have := ih _ m s2 h
            exact ⟨fun hm => this.1 (List.mem_cons_of_mem _ hm), this.2⟩
          · rw [if_neg h4] at h
            obtain ⟨hm, _⟩ := Prod.mk.injEq .. ▸ h
            cases hm
            refine ⟨h1, ?_⟩
            intro t ht
            unfold tooOldFor at h2
            rw [ht] at h2
            simp only [decide_eq_true_eq] at h2
            omega

/-! Claim theorems. -/

/-- C1: if `wait_for_message`, polling from a seen-id set, returns a message
`m`, then `m.id` is not in that set — in particular, since every id returned
or even examined earlier in the same call was added to the set before any
later return, `m`'s id was not already returned earlier in the call — and
when `m.receivedAt` is present it is at or after the call's invocation
instant `waitStart`. `wait_for_message` itself starts from the empty seen
set (`waitFromSeen` with `[]`). -/
theorem c1_wait_returns_fresh_recent (waitStart : Int) (fSubj fSend : Option String)
    (seen : List String) (polls : List (List EmailMessage)) (m : EmailMessage)
    (h : waitFromSeen waitStart fSubj fSend seen polls = some m) :
    m.id ∉ seen ∧ ∀ t, m.receivedAt = some t → waitStart ≤ t := by
  induction polls generalizing seen with
  | nil => simp [waitFromSeen] at h
  | cons poll rest ih =>
    simp only [waitFromSeen] at h
    rcases hs : scanPoll waitStart fSubj fSend seen poll with ⟨r, s1⟩
    rw [hs] at h
    cases r with
    | some m0 =>
      cases h
      exact scanPoll_some waitStart fSubj fSend poll seen m s1 hs
    | none =>
      have hrec := ih s1 h
      refine ⟨fun hm => hrec.1 ?_, hrec.2⟩
      have := scanPoll_mem_seen waitStart fSubj fSend poll seen m.id hm
      rwa [hs] at this

/-- C1 witness: a single poll returning a fresh message stamped at 150,
after the wait start 100, with one id seen earlier. -/
theorem c1_witness :
    freshMsg.id ∉ ["oldid"] ∧ ∀ t, freshMsg.receivedAt = some t → (100 : Int) ≤ t :=
  c1_wait_returns_fresh_recent 100 none none ["oldid"] [[freshMsg]] freshMsg (by decide)

/-- A well-formed record's compared timestamp is the integer value, `0` when
the field is absent. -/
theorem intTimestamped_recMsgTime {r : RawRecord} (h : intTimestamped r = true) :
    recMsgTime r = .num (tsOrZero r) := by
  unfold intTimestamped at h
  unfold recMsgTime tsOrZero
  rcases hp : r.posixMillis with _ | v
  · rfl
  · rw [hp] at h
    cases v with
    | num n => rfl
    | str s => simp at h

/-- The fetch loop under a truthy lower bound `b`, on well-formed records:
it keeps exactly the records whose defaulted timestamp exceeds `b`. -/
theorem processRecords_wellformed (email : String) (b : Int) (hb : ¬ b = 0) :
    ∀ l : List RawRecord, (∀ r ∈ l, intTimestamped r = true) →
      processRecords (some b) email l =
        .ok ((l.filter fun r => decide (b < tsOrZero r)).map (toMessage email)) := by
  intro l
  induction l with
  | nil => intro _; rfl
  | cons r rs ih =>
    intro hwf
    have hr : intTimestamped r = true := hwf r (List.mem_cons_self r rs)
    have hrs : ∀ x ∈ rs, intTimestamped x = true :=
      fun x hx => hwf x (List.mem_cons_of_mem _ hx)
    have hskip : recordSkip (some b) r = .ok (decide (tsOrZero r ≤ b)) := by
      simp only [recordSkip, if_neg hb, intTimestamped_recMsgTime hr, jsonLeInt]
    by_cases hle : tsOrZero r ≤ b
    · have hnlt : ¬ b < tsOrZero r := by omega
      simp only [processRecords, hskip, decide_eq_true hle, ih hrs, List.filter_cons,
        decide_eq_false hnlt]
      rfl
    · have hlt : b < tsOrZero r := by omega
      simp only [processRecords, hskip, decide_eq_false hle, ih hrs, List.filter_cons,
        decide_eq_true hlt, if_true]
      rfl

/-- C2 (amended): when a truthy lower bound `b` is in force and the fetched
records are well formed, a record is excluded exactly when its timestamp,
taken as `0` when the field is absent, is at most `b` — so a record with an
absent timestamp IS excluded by the time filter, contrary to the original
claim; and a record with an absent timestamp maps to a message with absent
`receivedAt` (reachable only when no bound is in force). -/
theorem c2_time_filter_defaults_to_zero (authToken : Option String) (email : String)
    (registrationTime since : Option Int) (limit : Nat) (data : List RawRecord) (b : Int)
    (hA : optStrTruthy authToken = true) (hE : ¬ email = "")
    (hB : effectiveSince since registrationTime = some b) (hb : ¬ b = 0)
    (hW : ∀ r ∈ data.take limit, intTimestamped r = true) :
    get_messages authToken email registrationTime since limit true data =
      ((data.take limit).filter fun r => decide (b < tsOrZero r)).map (toMessage email) ∧
    ∀ r : RawRecord, r.posixMillis = none → (toMessage email r).receivedAt = none := by
  constructor
  · unfold get_messages
    rw [hA, hB, processRecords_wellformed email b hb (data.take limit) hW]
    simp [hE]
  · intro r h
    simp [toMessage, parseReceivedAt, recMsgTime, jsonTruthy, h]

/-- C2 witness: bound 5000 in force; the record without a timestamp is
dropped, the one stamped 6000 is kept. -/
theorem c2_witness :
    get_messages (some "tok") "me@qabq.com" (some 5000) none 10 true [recNoTs, recKept] =
      (([recNoTs, recKept].take 10).filter fun r => decide ((5000 : Int) < tsOrZero r)).map
        (toMessage "me@qabq.com") ∧
    ∀ r : RawRecord, r.posixMillis = none →
      (toMessage "me@qabq.com" r).receivedAt = none :=
  c2_time_filter_defaults_to_zero (some "tok") "me@qabq.com" (some 5000) none 10
    [recNoTs, recKept] 5000 (by decide) (by decide) (by decide) (by decide) (by decide)

/-- C2 counterexample: with the bound 5000 in force, the record whose
`posix-millis` field is absent is excluded (its defaulted timestamp `0`
compares `<= 5000`), although the claim says an absent timestamp is never
excluded by the time filter. -/
theorem c2_counterexample :
    recNoTs.posixMillis = none ∧
    get_messages (some "tok") "me@qabq.com" (some 5000) none 10 true [recNoTs] = [] :=
  ⟨rfl, by decide⟩

/-- C5: with the bound 1000 in force, the batch holding a qualifying
well-formed record (`recGood`, stamped 2000, skip verdict false) and one
malformed-timestamp record (`recBadTs`, whose comparison raises) yields `[]`
as a whole: the exception escapes the per-record handling and the outer
handler empties the fetch. -/
theorem c5_malformed_timestamp_aborts_batch :
    get_messages (some "tok") "me@qabq.com" (some 1000) none 10 true [recGood, recBadTs] = [] ∧
    recordSkip (some 1000) recGood = .ok false ∧
    recordSkip (some 1000) recBadTs = .error () :=
  ⟨by decide, rfl, rfl⟩

/-- C6 (amended): when token acquisition fails (falsy result), `connect`
returns false and leaves the address, registration time and auto-create
flag unchanged, but overwrites the stored auth token with the failed
result — a previously held token is lost, contrary to the original claim. -/
theorem c6_connect_failure_frame (st : SessionState) (tokenResult : Option String)
    (lenChoice : Fin 5) (picks : Nat → Fin 26) (domainChoice : Fin 5) (now : Int)
    (h : optStrTruthy tokenResult = false) :
    (connect st tokenResult lenChoice picks domainChoice now).1 = false ∧
    (connect st tokenResult lenChoice picks domainChoice now).2.email = st.email ∧
    (connect st tokenResult lenChoice picks domainChoice now).2.registrationTime
      = st.registrationTime ∧
    (connect st tokenResult lenChoice picks domainChoice now).2.autoCreate = st.autoCreate ∧
    (connect st tokenResult lenChoice picks domainChoice now).2.authToken = tokenResult := by
  simp [connect, h]

/-- C6 witness: a failed handshake on a fresh-address session. -/
theorem c6_witness :
    (connect sessionWithToken none 0 zeroPicks 0 99).1 = false ∧
    (connect sessionWithToken none 0 zeroPicks 0 99).2.email = sessionWithToken.email ∧
    (connect sessionWithToken none 0 zeroPicks 0 99).2.registrationTime
      = sessionWithToken.registrationTime ∧
    (connect sessionWithToken none 0 zeroPicks 0 99).2.autoCreate
      = sessionWithToken.autoCreate ∧
    (connect sessionWithToken none 0 zeroPicks 0 99).2.authToken = none :=
  c6_connect_failure_frame sessionWithToken none 0 zeroPicks 0 99 rfl

/-- C6 counterexample: a session holding `"oldtoken"` goes through a failed
handshake; `connect` returns false but the held token is gone, although the
claim says any previously held auth token is unchanged. -/
theorem c6_counterexample :
    (connect sessionWithToken none 0 zeroPicks 0 99).1 = false ∧
    sessionWithToken.authToken = some "oldtoken" ∧
    (connect sessionWithToken none 0 zeroPicks 0 99).2.authToken ≠ some "oldtoken" := by
  decide

/-- C7: every generated address is `local@domain` with `local` a lowercase
alphabetic string of length 6 to 10 and `domain` one of the configured
hosts, for every possible RNG draw. -/
theorem c7_generated_address_shape (lenChoice : Fin 5) (picks : Nat → Fin 26)
    (domainChoice : Fin 5) :
    ∃ localPart domain,
      generate_random_email lenChoice picks domainChoice = localPart ++ "@" ++ domain ∧
      (∀ c ∈ localPart.data, 'a' ≤ c ∧ c ≤ 'z') ∧
      6 ≤ localPart.length ∧ localPart.length ≤ 10 ∧
      domain ∈ MAIL_HOSTS := by
  refine ⟨String.mk ((List.range (6 + lenChoice.val)).map
      fun i => asciiLowercase.getD (picks i).val 'a'),
    MAIL_HOSTS.getD domainChoice.val "", rfl, ?_, ?_, ?_, mail_hosts_getD_mem domainChoice⟩
  · intro c hc
    simp only [String.mk] at hc
    rcases List.mem_map.mp hc with ⟨i, _, rfl⟩
    exact asciiLowercase_getD_range (picks i)
  · have : (String.mk ((List.range (6 + lenChoice.val)).map
        fun i => asciiLowercase.getD (picks i).val 'a')).length = 6 + lenChoice.val := by
      simp [String.length]
    omega
  · have : (String.mk ((List.range (6 + lenChoice.val)).map
        fun i => asciiLowercase.getD (picks i).val 'a')).length = 6 + lenChoice.val := by
      simp [String.length]
    have hlt : lenChoice.val < 5 := lenChoice.isLt
    omega

/-- C8 (amended): the registration time recorded by a second `create_email`
is never earlier than the first's when the clock readings are monotone, and
is strictly later exactly when the millisecond clock strictly advanced
between the two calls; two calls inside the same wall-clock millisecond
record equal values. -/
theorem c8_registration_monotone (st : SessionState) (lc1 lc2 : Fin 5)
    (p1 p2 : Nat → Fin 26) (d1 d2 : Fin 5) (now1 now2 : Int) (h : now1 ≤ now2)
    (t1 t2 : Int)
    (h1 : (create_email st lc1 p1 d1 now1).2.registrationTime = some t1)
    (h2 : (create_email (create_email st lc1 p1 d1 now1).2 lc2 p2 d2 now2).2.registrationTime
      = some t2) :
    t1 ≤ t2 ∧ (now1 < now2 → t1 < t2) := by
  simp [create_email] at h1 h2
  omega

/-- C8 witness: clock readings 5 then 9. -/
theorem c8_witness : (5 : Int) ≤ 9 ∧ ((5 : Int) < 9 → (5 : Int) < 9) :=
  c8_registration_monotone freshSession 0 0 zeroPicks zeroPicks 0 0 5 9 (by omega)
    5 9 rfl rfl

/-- C8 counterexample: two `create_email` calls whose clock readings fall in
the same millisecond (both 1000) record equal registration times — the
second is not strictly later, although the claim says it always is. -/
theorem c8_counterexample :
    (create_email (create_email freshSession 0 zeroPicks 0 1000).2 0 zeroPicks 0
        1000).2.registrationTime =
      (create_email freshSession 0 zeroPicks 0 1000).2.registrationTime ∧
    ¬ ∃ t1 t2 : Int,
        (create_email freshSession 0 zeroPicks 0 1000).2.registrationTime = some t1 ∧
        (create_email (create_email freshSession 0 zeroPicks 0 1000).2 0 zeroPicks 0
            1000).2.registrationTime = some t2 ∧
        t1 < t2 := by
  refine ⟨rfl, ?_⟩
  rintro ⟨t1, t2, h1, h2, hlt⟩
  simp [create_email] at h1 h2
  omega

/-- `_is_valid_code` acceptance unfolded: the candidate is none of the
false-positive literals and its length lies in 4..8. -/
theorem is_valid_code_spec {c : String} (h : is_valid_code c = true) :
    falsePositives.contains c = false ∧ 4 ≤ c.length ∧ c.length ≤ 8 := by
  unfold is_valid_code at h
  split_ifs at h with h1 h2
  simp only [Bool.or_eq_true, decide_eq_true_eq, not_or] at h2
  refine ⟨by simpa using h1, ?_, ?_⟩ <;> omega

/-- Whatever the default-pattern loop returns passed validation. -/
theorem tryPatterns_valid :
    ∀ (ps : List (List Char → Option (List Char × List Char))) (s : List Char) (c : String),
      tryPatterns ps s = some c → is_valid_code c = true := by
  intro ps
  induction ps with
  | nil => intro s c h; simp [tryPatterns] at h
  | cons p ps ih =>
    intro s c h
    rcases hp : p s with _ | ⟨cap, rest⟩ <;> simp only [tryPatterns, hp] at h
    · exact ih s c h
    · split at h
      · next hv =>
        cases h
        exact hv
      · exact ih s c h

/-- Everything `addMatches` accumulates on top of a validated accumulator is
validated. -/
theorem addMatches_valid :
    ∀ (caps : List (List Char)) (seen acc : List String),
      (∀ c ∈ acc, is_valid_code c = true) →
      ∀ c ∈ (addMatches caps seen acc).2, is_valid_code c = true := by
  intro caps
  induction caps with
  | nil => intro seen acc hacc; simpa [addMatches] using hacc
  | cons cap rest ih =>
    intro seen acc hacc
    simp only [addMatches]
    split
    · next hcond =>
      refine ih _ _ ?_
      intro c hc
      rcases List.mem_cons.mp hc with rfl | hc2
      · exact (Bool.and_eq_true_iff.mp hcond).2
      · exact hacc c hc2
    · exact ih _ _ hacc

/-- Every code `collectCodes` emits passed validation. -/
theorem collectCodes_valid :
    ∀ (ps : List (List Char → Option (List Char × List Char))) (s : List Char)
      (seen acc : List String),
      (∀ c ∈ acc, is_valid_code c = true) →
      ∀ c ∈ collectCodes ps s seen acc, is_valid_code c = true := by
  intro ps
  induction ps with
  | nil =>
    intro s seen acc hacc c hc
    rw [collectCodes] at hc
    exact hacc c (List.mem_reverse.mp hc)
  | cons p ps ih =>
    intro s seen acc hacc
    simp only [collectCodes]
    exact ih s _ _ (addMatches_valid _ seen acc hacc)

/-- C3 (amended): with no custom pattern, `extract_code` never returns — and
`extract_all_codes` never contains — a false-positive literal or a candidate
whose length is outside 4..8 (every emitted code passed `_is_valid_code`); a
caller-supplied custom pattern, however, bypasses validation entirely, so
the original claim fails for it. -/
theorem c3_default_patterns_validated (flatten : String → String) (m : EmailMessage)
    (useHtml : Bool) :
    (∀ c, extract_code flatten m none useHtml = some c →
      falsePositives.contains c = false ∧ 4 ≤ c.length ∧ c.length ≤ 8) ∧
    (∀ c ∈ extract_all_codes flatten m useHtml,
      falsePositives.contains c = false ∧ 4 ≤ c.length ∧ c.length ≤ 8) := by
  constructor
  · intro c hc
    exact is_valid_code_spec (tryPatterns_valid PATTERNS _ c hc)
  · intro c hc
    exact is_valid_code_spec (collectCodes_valid PATTERNS _ [] [] (by simp) c hc)

/-- C3 counterexample: the custom pattern `(2024)` on a message whose body
is exactly `2024` makes `extract_code` return the false-positive literal
`"2024"` (length-4), because the custom-pattern branch skips validation —
refuting the claim for the custom-pattern argument combination. -/
theorem c3_counterexample :
    extract_code idFlatten msg2024 (some pat2024) true = some "2024" ∧
    "2024" ∈ falsePositives ∧ is_valid_code "2024" = false := by
  decide

/-- The default-pattern loop returns nothing exactly when every pattern's
first match (when it has one) fails validation. -/
theorem tryPatterns_eq_none_iff :
    ∀ (ps : List (List Char → Option (List Char × List Char))) (s : List Char),
      tryPatterns ps s = none ↔
        ∀ p ∈ ps, ∀ cap rest, p s = some (cap, rest) →
          is_valid_code (String.mk cap) = false := by
  intro ps
  induction ps with
  | nil => intro s; simp [tryPatterns]
  | cons p ps ih =>
    intro s
    rcases hp : p s with _ | ⟨cap, rest⟩ <;> simp only [tryPatterns, hp]
    · constructor
      · intro h q hq cap2 rest2 hsome
        rcases List.mem_cons.mp hq with rfl | hq2
        · rw [hp] at hsome
          cases hsome
        · exact (ih s).mp h q hq2 cap2 rest2 hsome
      · intro h
        exact (ih s).mpr fun q hq => h q (List.mem_cons_of_mem _ hq)
    · by_cases hv : is_valid_code (String.mk cap) = true
      · rw [if_pos hv]
        constructor
        · intro h
          cases h
        · intro h
          have := h p (List.mem_cons_self p ps) cap rest hp
          rw [hv] at this
          cases this
      · rw [if_neg hv]
        have hvf : is_valid_code (String.mk cap) = false := by
          simpa using hv
        constructor
        · intro h q hq cap2 rest2 hsome
          rcases List.mem_cons.mp hq with rfl | hq2
          · rw [hp] at hsome
            cases hsome
            exact hvf
          · exact (ih s).mp h q hq2 cap2 rest2 hsome
        · intro h
          exact (ih s).mpr fun q hq => h q (List.mem_cons_of_mem _ hq)

/-- C4 (amended): with no custom pattern, `extract_code` applies the table
in its priority order over the unified text but consults only the FIRST
match of each pattern (`re.search`); it returns absent exactly when every
pattern either has no match or has a first match whose captured group fails
validation — not, as originally claimed, only when no pattern has any
validating match at all. -/
theorem c4_absent_iff_first_matches_invalid (flatten : String → String)
    (m : EmailMessage) (useHtml : Bool) :
    extract_code flatten m none useHtml = none ↔
      ∀ p ∈ PATTERNS, ∀ cap rest,
        p (unifiedText flatten m.bodyHtml m.bodyText useHtml).data = some (cap, rest) →
        is_valid_code (String.mk cap) = false :=
  tryPatterns_eq_none_iff PATTERNS (unifiedText flatten m.bodyHtml m.bodyText useHtml).data

/-- C4 counterexample: on the body `2024 5678` the 4-digit pattern's first
match `2024` fails validation and no other pattern's first match validates,
so `extract_code` returns absent — yet the table does have a validating
match, `5678`, as `extract_all_codes` (same table, all matches) shows. -/
theorem c4_counterexample :
    extract_code idFlatten msgTwoNums none true = none ∧
    "5678" ∈ extract_all_codes idFlatten msgTwoNums true ∧
    is_valid_code "5678" = true := by
  decide

/-- C9: `extract_code` is a pure function of the message content — two
messages with identical `body_text` and `body_html`, under the same pattern
argument and flattening capability, yield identical results whatever their
other fields. -/
theorem c9_extract_code_deterministic (flatten : String → String) (m1 m2 : EmailMessage)
    (pattern : Option (String → Option String)) (useHtml : Bool)
    (hT : m1.bodyText = m2.bodyText) (hH : m1.bodyHtml = m2.bodyHtml) :
    extract_code flatten m1 pattern useHtml = extract_code flatten m2 pattern useHtml := by
  simp only [extract_code, hT, hH]

/-- C9 witness: two messages sharing a body but differing in id, subject and
sender give the same extracted code. -/
theorem c9_witness :
    extract_code idFlatten msgCodeA none true = extract_code idFlatten msgCodeB none true :=
  c9_extract_code_deterministic idFlatten msgCodeA msgCodeB none true rfl rfl

/-- C10: with a keyword, the HTML branch of `extract_link` returns the first
anchor matching the keyword in href or visible text without any scheme
check: here it returns a `mailto:` href, which is not an absolute HTTP(S)
URL (the scheme test of the no-keyword branch rejects it). -/
theorem c10_keyword_link_without_scheme_check :
    extract_link mailtoParse msgMailto (some "verify") = some "mailto:support@example.com" ∧
    hrefIsHttp "mailto:support@example.com" = false := by
  decide

end AirdropKit
